import Mathlib

/-!
Verification of the NigPing VPS agent (vps-agent, `index.ts`).

The agent keeps a WireGuard relay interface synchronized with a remote
peer table.  The definitions below are a shallow embedding of its
TypeScript source:

* `updateWireGuardConfigText` — the string-building phase of
  `updateWireGuardConfig(peers, privateKey)`: an `[Interface]` template
  followed by one `[Peer]` template per input record, accumulated with
  `config += ...` inside `peers.forEach`.
* `renderLines` — the same text viewed as its list of lines (each
  template literal split at its newline characters); the lemma
  `updateWireGuardConfigText_eq_unlines` proves the two views describe
  the same bytes.
* `applyPhase` — the file-write / hot-reload / restart phase of
  `updateWireGuardConfig`, with the success of each external command
  (`wg-quick strip`, `wg syncconf`, `wg-quick down`, `wg-quick up`)
  supplied by a `CmdOracle`.
* `realtimeCallback` — the `postgres_changes` event callback in `main`.
* `subscribeStatusCallback` — the `.subscribe((status) => ...)` handler.
* `registerSelf` — the self-registration block of `main` against the
  `servers` table, whose `ip` column is declared `UNIQUE`.
-/

namespace VpsAgent

/-- One row of the `vpn_profiles` table as consumed by the agent: its
`id` primary key (the peer identifier) and the fields the template
string of `updateWireGuardConfig` reads from each peer object (the
renderer itself never reads `id`). -/
structure PeerRecord where
  id : String
  user_id : String
  device_name : String
  public_key : String
  allowed_ip : String
deriving DecidableEq, Repr

/-- The `[Interface]` template literal of `updateWireGuardConfig`,
with the `privateKey` parameter interpolated. -/
def interfaceText (privateKey : String) : String :=
  "[Interface]\nPrivateKey = " ++ privateKey ++
  "\nListenPort = 51820\nSaveConfig = false\nAddress = 10.0.0.1/24\nPostUp = iptables -A FORWARD -i wg0 -j ACCEPT; iptables -t nat -A POSTROUTING -o eth0 -j MASQUERADE\nPostDown = iptables -D FORWARD -i wg0 -j ACCEPT; iptables -t nat -D POSTROUTING -o eth0 -j MASQUERADE\n\n"

/-- The `[Peer]` template literal appended for one peer record inside
`peers.forEach`, with the record's fields interpolated. -/
def peerText (p : PeerRecord) : String :=
  "[Peer]\n# User: " ++ p.user_id ++ " - Device: " ++ p.device_name ++
  "\nPublicKey = " ++ p.public_key ++ "\nAllowedIPs = " ++ p.allowed_ip ++ "/32\n\n"

/-- The string-building phase of `updateWireGuardConfig(peers, privateKey)`:
`config` starts as the interface template and each peer appends its
peer template (`config += ...`). -/
def updateWireGuardConfigText (peers : List PeerRecord) (privateKey : String) : String :=
  peers.foldl (fun config p => config ++ peerText p) (interfaceText privateKey)

/-- The lines of the `[Interface]` template, in order (the trailing
empty string is the blank separator line the template ends with). -/
def interfaceLines (privateKey : String) : List String :=
  ["[Interface]",
   "PrivateKey = " ++ privateKey,
   "ListenPort = 51820",
   "SaveConfig = false",
   "Address = 10.0.0.1/24",
   "PostUp = iptables -A FORWARD -i wg0 -j ACCEPT; iptables -t nat -A POSTROUTING -o eth0 -j MASQUERADE",
   "PostDown = iptables -D FORWARD -i wg0 -j ACCEPT; iptables -t nat -D POSTROUTING -o eth0 -j MASQUERADE",
   ""]

/-- The lines of one `[Peer]` template, in order. -/
def peerLines (p : PeerRecord) : List String :=
  ["[Peer]",
   "# User: " ++ p.user_id ++ " - Device: " ++ p.device_name,
   "PublicKey = " ++ p.public_key,
   "AllowedIPs = " ++ p.allowed_ip ++ "/32",
   ""]

/-- The rendered configuration as a list of lines: the interface block
followed by one peer block per input record, in input order. -/
def renderLines (peers : List PeerRecord) (privateKey : String) : List String :=
  interfaceLines privateKey ++ (peers.map peerLines).flatten

/-- Concatenation of the images of a string-valued function over a list. -/
def concatMap (f : α → String) : List α → String
  | [] => ""
  | a :: l => f a ++ concatMap f l

/-- Joins a list of lines back into a flat text, terminating every line
with a newline character. -/
def unlines (l : List String) : String :=
  concatMap (fun s => s ++ "\n") l

theorem concatMap_append (f : α → String) (l₁ l₂ : List α) :
    concatMap f (l₁ ++ l₂) = concatMap f l₁ ++ concatMap f l₂ := by
  induction l₁ with
  | nil => simp [concatMap, String.empty_append]
  | cons a l ih => simp [concatMap, ih, String.append_assoc]

theorem unlines_append (l₁ l₂ : List String) :
    unlines (l₁ ++ l₂) = unlines l₁ ++ unlines l₂ :=
  concatMap_append _ l₁ l₂

theorem foldl_append_peerText (peers : List PeerRecord) (init : String) :
    peers.foldl (fun config p => config ++ peerText p) init
      = init ++ concatMap peerText peers := by
  induction peers generalizing init with
  | nil => simp [concatMap, String.append_empty]
  | cons p l ih => simp [List.foldl_cons, concatMap, ih, String.append_assoc]

theorem peerText_eq_unlines (p : PeerRecord) :
    peerText p = unlines (peerLines p) := by
  apply String.ext
  simp [peerText, peerLines, unlines, concatMap, String.data_append]

set_option maxRecDepth 8192 in
theorem interfaceText_eq_unlines (privateKey : String) :
    interfaceText privateKey = unlines (interfaceLines privateKey) := by
  apply String.ext
  simp [interfaceText, interfaceLines, unlines, concatMap, String.data_append]

/-- The flat text built by `updateWireGuardConfig` is exactly the
newline-joined form of `renderLines`: the two views of the renderer
agree byte for byte. -/
theorem updateWireGuardConfigText_eq_unlines (peers : List PeerRecord) (privateKey : String) :
    updateWireGuardConfigText peers privateKey = unlines (renderLines peers privateKey) := by
  rw [updateWireGuardConfigText, foldl_append_peerText, renderLines, unlines_append,
    interfaceText_eq_unlines]
  congr 1
  induction peers with
  | nil => simp [concatMap, unlines]
  | cons p l ih => simp [concatMap, ih, peerText_eq_unlines, unlines_append]

/-- Validity of a peer record in the sense of the specification: a
non-empty public key and a non-empty tunnel address. -/
def validPeer (p : PeerRecord) : Prop :=
  p.public_key ≠ "" ∧ p.allowed_ip ≠ ""

instance (p : PeerRecord) : Decidable (validPeer p) :=
  inferInstanceAs (Decidable (_ ∧ _))

theorem count_peerLines_peer (p : PeerRecord) : (peerLines p).count "[Peer]" = 1 := by
  have h1 : ("# User: " ++ p.user_id ++ " - Device: " ++ p.device_name) ≠ "[Peer]" := by
    intro h; have hd := congrArg String.data h; simp [String.data_append] at hd
  have h2 : ("PublicKey = " ++ p.public_key) ≠ "[Peer]" := by
    intro h; have hd := congrArg String.data h; simp [String.data_append] at hd
  have h3 : ("AllowedIPs = " ++ p.allowed_ip ++ "/32") ≠ "[Peer]" := by
    intro h; have hd := congrArg String.data h; simp [String.data_append] at hd
  simp [peerLines, List.count_cons, h1, h2, h3]

theorem count_peerLines_interface (p : PeerRecord) :
    (peerLines p).count "[Interface]" = 0 := by
  have h1 : ("# User: " ++ p.user_id ++ " - Device: " ++ p.device_name) ≠ "[Interface]" := by
    intro h; have hd := congrArg String.data h; simp [String.data_append] at hd
  have h2 : ("PublicKey = " ++ p.public_key) ≠ "[Interface]" := by
    intro h; have hd := congrArg String.data h; simp [String.data_append] at hd
  have h3 : ("AllowedIPs = " ++ p.allowed_ip ++ "/32") ≠ "[Interface]" := by
    intro h; have hd := congrArg String.data h; simp [String.data_append] at hd
  simp [peerLines, List.count_cons, h1, h2, h3]

set_option maxRecDepth 8192 in
theorem count_interfaceLines_peer (privateKey : String) :
    (interfaceLines privateKey).count "[Peer]" = 0 := by
  have h1 : ("PrivateKey = " ++ privateKey) ≠ "[Peer]" := by
    intro h; have hd := congrArg String.data h; simp [String.data_append] at hd
  simp [interfaceLines, List.count_cons, h1]

set_option maxRecDepth 8192 in
theorem count_interfaceLines_interface (privateKey : String) :
    (interfaceLines privateKey).count "[Interface]" = 1 := by
  have h1 : ("PrivateKey = " ++ privateKey) ≠ "[Interface]" := by
    intro h; have hd := congrArg String.data h; simp [String.data_append] at hd
  simp [interfaceLines, List.count_cons, h1]

theorem count_flatten_peer (peers : List PeerRecord) :
    ((peers.map peerLines).flatten).count "[Peer]" = peers.length := by
  induction peers with
  | nil => simp
  | cons p l ih => simp [List.count_append, count_peerLines_peer, ih, Nat.add_comm]

theorem count_flatten_interface (peers : List PeerRecord) :
    ((peers.map peerLines).flatten).count "[Interface]" = 0 := by
  induction peers with
  | nil => simp
  | cons p l ih => simp [List.count_append, count_peerLines_interface, ih]

theorem count_renderLines_peer (peers : List PeerRecord) (privateKey : String) :
    (renderLines peers privateKey).count "[Peer]" = peers.length := by
  simp [renderLines, List.count_append, count_interfaceLines_peer, count_flatten_peer]

theorem count_renderLines_interface (peers : List PeerRecord) (privateKey : String) :
    (renderLines peers privateKey).count "[Interface]" = 1 := by
  simp [renderLines, List.count_append, count_interfaceLines_interface,
    count_flatten_interface]

theorem peerLines_length (p : PeerRecord) : (peerLines p).length = 5 := rfl

theorem interfaceLines_length (privateKey : String) :
    (interfaceLines privateKey).length = 8 := rfl

theorem flatten_peer_section (peers : List PeerRecord) (i : Nat) (h : i < peers.length) :
    (((peers.map peerLines).flatten).drop (5 * i)).take 5 = peerLines peers[i] := by
  induction peers generalizing i with
  | nil => simp at h
  | cons p l ih =>
    cases i with
    | zero =>
      simp only [List.map_cons, List.flatten_cons, Nat.mul_zero, List.drop_zero,
        List.getElem_cons_zero]
      rw [← peerLines_length p, List.take_left]
    | succ j =>
      have hmul : 5 * (j + 1) = (peerLines p).length + 5 * j := by
        rw [peerLines_length]; ring
      simp only [List.map_cons, List.flatten_cons, List.getElem_cons_succ]
      rw [hmul, List.drop_append]
      exact ih j (by simpa using h)

theorem renderLines_peer_section (peers : List PeerRecord) (privateKey : String)
    (i : Nat) (h : i < peers.length) :
    ((renderLines peers privateKey).drop (8 + 5 * i)).take 5 = peerLines peers[i] := by
  have h8 : (8 : Nat) + 5 * i = (interfaceLines privateKey).length + 5 * i := by
    rw [interfaceLines_length]
  rw [renderLines, h8, List.drop_append]
  exact flatten_peer_section peers i h

/-- Claim C2: for a peer list of size N with all valid records, the
rendered configuration has exactly one interface section carrying the
relay private key and listen port 51820, exactly N peer sections, and
the i-th peer section consists exactly of the lines of the i-th input
record, carrying its public key and its tunnel address with a /32
suffix. -/
theorem render_correct (peers : List PeerRecord) (privateKey : String)
    (_hval : ∀ p ∈ peers, validPeer p) :
    (renderLines peers privateKey).count "[Interface]" = 1
    ∧ (renderLines peers privateKey).count "[Peer]" = peers.length
    ∧ ("PrivateKey = " ++ privateKey) ∈ renderLines peers privateKey
    ∧ "ListenPort = 51820" ∈ renderLines peers privateKey
    ∧ (∀ i, (h : i < peers.length) →
        ((renderLines peers privateKey).drop (8 + 5 * i)).take 5 = peerLines peers[i])
    ∧ (∀ p ∈ peers, ("PublicKey = " ++ p.public_key) ∈ renderLines peers privateKey
        ∧ ("AllowedIPs = " ++ p.allowed_ip ++ "/32") ∈ renderLines peers privateKey) := by
  refine ⟨count_renderLines_interface peers privateKey,
    count_renderLines_peer peers privateKey, ?_, ?_, ?_, ?_⟩
  · simp [renderLines, interfaceLines]
  · simp [renderLines, interfaceLines]
  · exact fun i h => renderLines_peer_section peers privateKey i h
  · intro p hp
    have hmem : peerLines p ∈ peers.map peerLines := List.mem_map_of_mem peerLines hp
    constructor
    · apply List.mem_append_right
      exact List.mem_flatten.2 ⟨peerLines p, hmem, by simp [peerLines]⟩
    · apply List.mem_append_right
      exact List.mem_flatten.2 ⟨peerLines p, hmem, by simp [peerLines]⟩

/-- Sample valid peer record used as concrete witness input. -/
def samplePeerA : PeerRecord :=
  { id := "a1", user_id := "u1", device_name := "laptop",
    public_key := "pkA", allowed_ip := "10.0.0.5" }

/-- A second sample valid peer record. -/
def samplePeerB : PeerRecord :=
  { id := "b2", user_id := "u2", device_name := "phone",
    public_key := "pkB", allowed_ip := "10.0.0.6" }

/-- A malformed peer record: its public key is the empty string. -/
def sampleBadPeer : PeerRecord :=
  { id := "c3", user_id := "u3", device_name := "tv",
    public_key := "", allowed_ip := "10.0.0.7" }

set_option maxRecDepth 8192 in
theorem render_correct_witness :
    (∀ p ∈ [samplePeerA, samplePeerB], validPeer p)
    ∧ (renderLines [samplePeerA, samplePeerB] "PRIV").count "[Interface]" = 1
    ∧ (renderLines [samplePeerA, samplePeerB] "PRIV").count "[Peer]" = 2 := by
  have hval : ∀ p ∈ [samplePeerA, samplePeerB], validPeer p := by decide
  have h := render_correct [samplePeerA, samplePeerB] "PRIV" hval
  exact ⟨hval, h.1, h.2.1⟩

set_option maxRecDepth 8192 in
/-- Claim C1, counterexample: on a list of N = 2 records of which one
has an empty public key, the renderer emits 2 peer sections, not
N - 1 = 1: no skipping of the malformed record happens. -/
theorem malformed_peer_skip_counterexample :
    ¬ ((renderLines [samplePeerA, sampleBadPeer] "PRIV").count "[Peer]"
        = ([samplePeerA, sampleBadPeer] : List PeerRecord).length - 1) := by
  decide

/-- Claim C1, amended: the string-building phase of
`updateWireGuardConfig` performs no validity check at all: every input
record, malformed or not, contributes exactly one peer section, its
public key appearing verbatim in its PublicKey line, and no warning
mechanism exists in this phase; the render never aborts. -/
theorem render_no_skip (peers : List PeerRecord) (privateKey : String) :
    (renderLines peers privateKey).count "[Peer]" = peers.length
    ∧ ∀ p ∈ peers, ("PublicKey = " ++ p.public_key) ∈ renderLines peers privateKey := by
  refine ⟨count_renderLines_peer peers privateKey, fun p hp => ?_⟩
  apply List.mem_append_right
  exact List.mem_flatten.2 ⟨peerLines p, List.mem_map_of_mem peerLines hp, by simp [peerLines]⟩

set_option maxRecDepth 8192 in
theorem render_no_skip_witness :
    (renderLines [samplePeerA, sampleBadPeer] "PRIV").count "[Peer]" = 2
    ∧ ("PublicKey = " ++ sampleBadPeer.public_key)
        ∈ renderLines [samplePeerA, sampleBadPeer] "PRIV" := by
  have h := render_no_skip [samplePeerA, sampleBadPeer] "PRIV"
  exact ⟨h.1, h.2 sampleBadPeer (by decide)⟩

/-- Claim C3: the string-building phase is a pure function of the peer
list and the private key: equal inputs give byte-identical output text
(the template references nothing besides its two parameters, so no
invocation-dependent content can appear). -/
theorem render_deterministic (peers₁ peers₂ : List PeerRecord) (k₁ k₂ : String)
    (hp : peers₁ = peers₂) (hk : k₁ = k₂) :
    updateWireGuardConfigText peers₁ k₁ = updateWireGuardConfigText peers₂ k₂ := by
  rw [hp, hk]

theorem render_deterministic_witness :
    updateWireGuardConfigText [samplePeerA] "PRIV"
      = updateWireGuardConfigText [samplePeerA] "PRIV" :=
  render_deterministic [samplePeerA] [samplePeerA] "PRIV" "PRIV" rfl rfl

/-- The external commands the apply phase of `updateWireGuardConfig`
can invoke through `runCommand` (which throws when the command fails). -/
inductive Cmd
  | strip
  | syncconf
  | quickDown
  | quickUp
deriving DecidableEq, Repr

/-- Success oracle for the external commands: whether each would
succeed if invoked during this apply. -/
structure CmdOracle where
  stripOk : Bool
  syncOk : Bool
  downOk : Bool
  upOk : Bool
deriving DecidableEq, Repr

/-- Observable events of one `updateWireGuardConfig` invocation:
the `writeFileSync` of the rendered text to the interface
configuration file, and each attempted external command. -/
inductive Event
  | writeConf (text : String)
  | run (c : Cmd)
deriving DecidableEq, Repr

/-- Host state touched by the apply phase: the contents of the
on-disk interface configuration file, and the configuration loaded in
the running kernel interface (`none` = interface down). -/
structure SysState where
  confFile : Option String
  kernel : Option String
deriving DecidableEq, Repr

/-- One full invocation of `updateWireGuardConfig(peers, privateKey)`:
build the text, overwrite the configuration file, then try the hot
reload (`wg-quick strip`, then `wg syncconf`); on any failure there,
fall back to `wg-quick down` (its own failure swallowed by an empty
catch) followed by `wg-quick up` (whose failure propagates to the
caller).  Returns the event trace in execution order, the resulting
host state, and whether the invocation returned normally. -/
def updateWireGuardConfigRun (o : CmdOracle) (peers : List PeerRecord)
    (privateKey : String) (s : SysState) : List Event × SysState × Bool :=
  let text := updateWireGuardConfigText peers privateKey
  let s1 : SysState := { s with confFile := some text }
  if o.stripOk && o.syncOk then
    ([.writeConf text, .run .strip, .run .syncconf], { s1 with kernel := some text }, true)
  else
    let events := if o.stripOk then
        [Event.writeConf text, .run .strip, .run .syncconf, .run .quickDown, .run .quickUp]
      else [Event.writeConf text, .run .strip, .run .quickDown, .run .quickUp]
    let s2 := if o.downOk then { s1 with kernel := none } else s1
    if o.upOk then (events, { s2 with kernel := some text }, true)
    else (events, s2, false)

theorem applyRun_confFile (o : CmdOracle) (peers : List PeerRecord)
    (privateKey : String) (s : SysState) :
    (updateWireGuardConfigRun o peers privateKey s).2.1.confFile
      = some (updateWireGuardConfigText peers privateKey) := by
  cases hb : (o.stripOk && o.syncOk) <;> cases hu : o.upOk <;> cases hd : o.downOk <;>
    simp [updateWireGuardConfigRun, hb, hu, hd]

theorem applyRun_trace_head (o : CmdOracle) (peers : List PeerRecord)
    (privateKey : String) (s : SysState) :
    (updateWireGuardConfigRun o peers privateKey s).1.head?
      = some (Event.writeConf (updateWireGuardConfigText peers privateKey)) := by
  cases hs : o.stripOk <;> cases hy : o.syncOk <;> cases hu : o.upOk <;>
    simp [updateWireGuardConfigRun, hs, hy, hu]

theorem applyRun_fallback_trace (o : CmdOracle) (peers : List PeerRecord)
    (privateKey : String) (s : SysState)
    (hfail : (o.stripOk && o.syncOk) = false) :
    ∃ pre, (updateWireGuardConfigRun o peers privateKey s).1
      = pre ++ [Event.run Cmd.quickDown, Event.run Cmd.quickUp] := by
  cases hs : o.stripOk with
  | false =>
    cases hu : o.upOk <;>
      exact ⟨[Event.writeConf (updateWireGuardConfigText peers privateKey),
        Event.run Cmd.strip], by simp [updateWireGuardConfigRun, hs, hu]⟩
  | true =>
    cases hy : o.syncOk with
    | true => rw [hs, hy] at hfail; simp at hfail
    | false =>
      cases hu : o.upOk <;>
        exact ⟨[Event.writeConf (updateWireGuardConfigText peers privateKey),
          Event.run Cmd.strip, Event.run Cmd.syncconf],
          by simp [updateWireGuardConfigRun, hs, hy, hu]⟩

theorem applyRun_kernel_of_failure (o : CmdOracle) (peers : List PeerRecord)
    (privateKey : String) (s : SysState)
    (hfail : (o.stripOk && o.syncOk) = false) (hup : o.upOk = false) :
    (updateWireGuardConfigRun o peers privateKey s).2.1.kernel
      = if o.downOk then none else s.kernel := by
  cases hd : o.downOk <;> simp [updateWireGuardConfigRun, hfail, hup, hd]

/-- Claim C5: whenever the hot-reload path fails (strip or syncconf),
the applier runs a full bring-down immediately followed by a bring-up,
and this trace is the same whatever the bring-down outcome is — a
bring-down failure is tolerated, the bring-up is still attempted; at
that point the configuration file already holds the newly written
text. -/
theorem apply_fallback_on_hot_reload_failure (o : CmdOracle) (peers : List PeerRecord)
    (privateKey : String) (s : SysState)
    (hfail : (o.stripOk && o.syncOk) = false) :
    (∃ pre, (updateWireGuardConfigRun o peers privateKey s).1
        = pre ++ [Event.run Cmd.quickDown, Event.run Cmd.quickUp])
    ∧ (updateWireGuardConfigRun o peers privateKey s).2.1.confFile
        = some (updateWireGuardConfigText peers privateKey) :=
  ⟨applyRun_fallback_trace o peers privateKey s hfail,
    applyRun_confFile o peers privateKey s⟩

/-- Concrete oracle in which the hot reload fails and the bring-down
also fails but the bring-up succeeds. -/
def oracleHotFailDownFail : CmdOracle :=
  { stripOk := false, syncOk := false, downOk := false, upOk := true }

theorem apply_fallback_witness :
    (oracleHotFailDownFail.stripOk && oracleHotFailDownFail.syncOk) = false
    ∧ ((∃ pre, (updateWireGuardConfigRun oracleHotFailDownFail [] "PRIV"
          ⟨none, none⟩).1 = pre ++ [Event.run Cmd.quickDown, Event.run Cmd.quickUp])
      ∧ (updateWireGuardConfigRun oracleHotFailDownFail [] "PRIV"
          ⟨none, none⟩).2.1.confFile = some (updateWireGuardConfigText [] "PRIV")) :=
  ⟨rfl, apply_fallback_on_hot_reload_failure oracleHotFailDownFail [] "PRIV"
    ⟨none, none⟩ rfl⟩

/-- Claim C10, amended: on every apply invocation the configuration
file is overwritten with the newly rendered text before any command
runs (the write is the first event), and the final file contents are
the new text whatever the command outcomes are; when the hot reload
and the bring-up both fail, the kernel interface keeps the
previously-applied configuration if the bring-down also failed, and is
left down (no configuration) if the bring-down succeeded — in neither
case does it carry the new text unless it already did. -/
theorem apply_writes_file_first (o : CmdOracle) (peers : List PeerRecord)
    (privateKey : String) (s : SysState) :
    (updateWireGuardConfigRun o peers privateKey s).1.head?
      = some (Event.writeConf (updateWireGuardConfigText peers privateKey))
    ∧ (updateWireGuardConfigRun o peers privateKey s).2.1.confFile
      = some (updateWireGuardConfigText peers privateKey)
    ∧ ((o.stripOk && o.syncOk) = false → o.upOk = false →
        (updateWireGuardConfigRun o peers privateKey s).2.1.kernel
          = if o.downOk then none else s.kernel) :=
  ⟨applyRun_trace_head o peers privateKey s,
    applyRun_confFile o peers privateKey s,
    fun h1 h2 => applyRun_kernel_of_failure o peers privateKey s h1 h2⟩

theorem apply_writes_file_first_witness :
    (updateWireGuardConfigRun ⟨false, false, false, false⟩ [] "PRIV"
        ⟨some "old", some "old"⟩).1.head?
      = some (Event.writeConf (updateWireGuardConfigText [] "PRIV"))
    ∧ (updateWireGuardConfigRun ⟨false, false, false, false⟩ [] "PRIV"
        ⟨some "old", some "old"⟩).2.1.confFile
      = some (updateWireGuardConfigText [] "PRIV")
    ∧ (updateWireGuardConfigRun ⟨false, false, false, false⟩ [] "PRIV"
        ⟨some "old", some "old"⟩).2.1.kernel = some "old" := by
  have h := apply_writes_file_first ⟨false, false, false, false⟩ [] "PRIV"
    ⟨some "old", some "old"⟩
  exact ⟨h.1, h.2.1, by simpa using h.2.2 rfl rfl⟩

/-- Claim C10, counterexample: with the hot reload failing, the
bring-down succeeding and the bring-up failing, the kernel interface
is left down — it does not retain the previously-applied
configuration, while the file does hold the new text. -/
theorem apply_kernel_not_retained_counterexample :
    (updateWireGuardConfigRun ⟨false, false, true, false⟩ [] "PRIV"
        ⟨some "old", some "old"⟩).2.1.kernel = none
    ∧ (⟨some "old", some "old"⟩ : SysState).kernel = some "old" := by
  constructor
  · rfl
  · rfl

/-- Result of a supabase query as the agent destructures it: `data` is
null exactly when the query failed, and `error` then describes the
failure.  The realtime change callback destructures only `data` and
never reads `error`. -/
structure QueryOutcome where
  data : Option (List PeerRecord)
  error : Option String
deriving DecidableEq, Repr

/-- Observable actions of the realtime change callback: a console.log
line, a console.error line, or an invocation of
`updateWireGuardConfig` with the rendered text it would write. -/
inductive AgentAction
  | logInfo (msg : String)
  | logError (msg : String)
  | applyConfig (text : String)
deriving DecidableEq, Repr

/-- True exactly on an `applyConfig` action. -/
def isApplyAction : AgentAction → Bool
  | .applyConfig _ => true
  | _ => false

/-- True exactly on a `logError` action. -/
def isErrorLog : AgentAction → Bool
  | .logError _ => true
  | _ => false

/-- The `postgres_changes` event callback of `main`, in execution
order: log the change, re-fetch the active peers (outcome supplied as
`q`; only its `data` field is destructured, `error` is discarded), and
if data is non-null invoke `updateWireGuardConfig` inside a
try/catch whose handler logs a config error (`applyThrows` says
whether that invocation threw). -/
def realtimeCallback (privateKey eventType : String) (q : QueryOutcome)
    (applyThrows : Bool) : List AgentAction :=
  AgentAction.logInfo ("Change detected! " ++ eventType) ::
    match q.data with
    | none => []
    | some currentPeers =>
      AgentAction.applyConfig (updateWireGuardConfigText currentPeers privateKey) ::
        (if applyThrows then [AgentAction.logError "Failed to update WG config on change:"]
         else [])

/-- Claim C4, amended: when the re-fetch inside the change callback
fails (null data), no apply is attempted — the previously applied
configuration file and interface are left untouched — but the query
failure is not logged either: the callback discards the error field,
and its whole output is the change-detection line, independent of the
error value. -/
theorem callback_query_failure_no_apply (privateKey eventType : String)
    (err : Option String) (applyThrows : Bool) :
    realtimeCallback privateKey eventType { data := none, error := err } applyThrows
      = [AgentAction.logInfo ("Change detected! " ++ eventType)] := rfl

/-- Claim C4, counterexample: on a concrete failed query the callback
emits no error log at all (and no apply), so the failure is not
logged. -/
theorem callback_failure_not_logged_counterexample :
    realtimeCallback "PRIV" "UPDATE" { data := none, error := some "boom" } true
      = [AgentAction.logInfo "Change detected! UPDATE"]
    ∧ (realtimeCallback "PRIV" "UPDATE" { data := none, error := some "boom" } true).countP
        isErrorLog = 0
    ∧ (realtimeCallback "PRIV" "UPDATE" { data := none, error := some "boom" } true).countP
        isApplyAction = 0 := by
  exact ⟨rfl, rfl, rfl⟩

/-- What the `.subscribe((status) => ...)` handler of `main` does for a
given status string: the console.log and console.error lines it
prints, and whether it invokes the fetch-render-apply pipeline (its
body contains only the two console calls, so it never does). -/
structure StatusHandlerResult where
  logs : List String
  errorLogs : List String
  runsReconciliation : Bool
deriving DecidableEq, Repr

/-- The subscription status handler: logs on `SUBSCRIBED`, logs an
error on `CHANNEL_ERROR`, does nothing otherwise. -/
def subscribeStatusCallback (status : String) : StatusHandlerResult :=
  if status = "SUBSCRIBED" then
    { logs := ["Realtime connected!"], errorLogs := [], runsReconciliation := false }
  else if status = "CHANNEL_ERROR" then
    { logs := [], errorLogs := ["Realtime subscription error."], runsReconciliation := false }
  else
    { logs := [], errorLogs := [], runsReconciliation := false }

/-- Claim C8, amended: regaining the subscribed state triggers no
reconciliation: for every status value the handler runs none, and on
`SUBSCRIBED` it only prints the connected line — changes that occurred
during a gap are not picked up until the next change event. -/
theorem subscribe_status_no_reconciliation (status : String) :
    (subscribeStatusCallback status).runsReconciliation = false
    ∧ (subscribeStatusCallback "SUBSCRIBED").logs = ["Realtime connected!"] := by
  refine ⟨?_, rfl⟩
  unfold subscribeStatusCallback
  split
  · rfl
  · split <;> rfl

/-- Claim C8, counterexample: on the concrete status `SUBSCRIBED` the
handler only logs; it does not re-run a reconciliation. -/
theorem subscribed_no_resync_counterexample :
    subscribeStatusCallback "SUBSCRIBED"
      = { logs := ["Realtime connected!"], errorLogs := [], runsReconciliation := false } := by
  rfl

/-- Outcome of the self-registration block of `main`: the `servers`
table contents after the block (as the list of its `ip` column values,
declared `UNIQUE` by the schema), the console.log lines, the
console.error lines, and whether the block exited the process (none of
its branches calls `process.exit` or throws: fetch and insert errors
are only logged). -/
structure RegResult where
  store : List String
  logs : List String
  errorLogs : List String
  exitsProcess : Bool
deriving DecidableEq, Repr

/-- The self-registration block of `main`: fetch the server row for
this ip with `maybeSingle()` (`fetchFails` says whether that query
errors, in which case its data is null and the error is logged); if no
row came back, insert one, the insert failing against the schema's
unique-ip constraint exactly when a row with this ip already exists,
in which case the error is logged and execution continues. -/
def registerSelf (fetchFails : Bool) (store : List String) (publicIp : String) : RegResult :=
  let fetched : Option String :=
    if fetchFails then none
    else if publicIp ∈ store then some publicIp else none
  let fetchErrorLogs : List String :=
    if fetchFails then ["Error fetching server info:"] else []
  match fetched with
  | some _ =>
    { store := store, logs := ["Server found in DB."],
      errorLogs := fetchErrorLogs, exitsProcess := false }
  | none =>
    if publicIp ∈ store then
      { store := store,
        logs := ["Server not found in DB. Registering..."],
        errorLogs := fetchErrorLogs ++ ["Failed to register server:"],
        exitsProcess := false }
    else
      { store := store ++ [publicIp],
        logs := ["Server not found in DB. Registering..."],
        errorLogs := fetchErrorLogs,
        exitsProcess := false }

theorem registerSelf_count (f : Bool) (s : List String) (ip : String)
    (h : s.count ip ≤ 1) :
    (registerSelf f s ip).store.count ip = 1 := by
  by_cases hm : ip ∈ s
  · have h1 : s.count ip = 1 :=
      Nat.le_antisymm h (List.count_pos_iff.2 hm)
    cases f <;> simp [registerSelf, hm, h1]
  · have h0 : s.count ip = 0 := List.count_eq_zero.2 hm
    cases f <;> simp [registerSelf, hm, List.count_append, h0]

theorem registerSelf_no_exit (f : Bool) (s : List String) (ip : String) :
    (registerSelf f s ip).exitsProcess = false := by
  by_cases hm : ip ∈ s <;> cases f <;> simp [registerSelf, hm]

/-- Claim C6: from a store respecting the unique-ip constraint (at
most one record for this address, in particular a fresh one with
none), running the registration block twice with the same resolved
address — whatever the two fetch outcomes are — leaves exactly one
record for that address, and the second run never exits the process:
both its fetch error and its duplicate-insert error are only logged. -/
theorem registration_idempotent (f₁ f₂ : Bool) (s₀ : List String) (ip : String)
    (h₀ : s₀.count ip ≤ 1) :
    ((registerSelf f₂ (registerSelf f₁ s₀ ip).store ip).store.count ip = 1)
    ∧ (registerSelf f₂ (registerSelf f₁ s₀ ip).store ip).exitsProcess = false := by
  have h₁ : (registerSelf f₁ s₀ ip).store.count ip = 1 := registerSelf_count f₁ s₀ ip h₀
  exact ⟨registerSelf_count f₂ _ ip (Nat.le_of_eq h₁),
    registerSelf_no_exit f₂ _ ip⟩

theorem registration_idempotent_witness :
    (([] : List String).count "1.2.3.4" ≤ 1)
    ∧ ((registerSelf true (registerSelf false [] "1.2.3.4").store "1.2.3.4").store.count
        "1.2.3.4" = 1)
    ∧ (registerSelf true (registerSelf false [] "1.2.3.4").store "1.2.3.4").exitsProcess
        = false := by
  have h := registration_idempotent false true [] "1.2.3.4" (by decide)
  exact ⟨by decide, h.1, h.2⟩

/-- Modelled from the spec: ordered insertion by peer identifier, the
building block of the optional deterministic secondary sort of fetched
rows by peer identifier.  No such sort exists in the agent source: the
peer fetches in `main` carry no order clause and the renderer consumes
the list as given. -/
def insertById (p : PeerRecord) : List PeerRecord → List PeerRecord
  | [] => [p]
  | q :: l => if p.id ≤ q.id then p :: q :: l else q :: insertById p l

/-- Modelled from the spec: the deterministic secondary sort of a peer
list by peer identifier (insertion sort with `insertById`). -/
def sortById (l : List PeerRecord) : List PeerRecord :=
  l.foldr insertById []

theorem sortById_cons (p : PeerRecord) (l : List PeerRecord) :
    sortById (p :: l) = insertById p (sortById l) := rfl

theorem insertById_comm (a b : PeerRecord) (l : List PeerRecord) (h : a.id ≠ b.id) :
    insertById a (insertById b l) = insertById b (insertById a l) := by
  induction l with
  | nil =>
    by_cases hab : a.id ≤ b.id
    · have hba : ¬ b.id ≤ a.id := fun hba => h (le_antisymm hab hba)
      simp [insertById, hab, hba]
    · have hba : b.id ≤ a.id := le_of_not_le hab
      simp [insertById, hab, hba]
  | cons q l ih =>
    by_cases haq : a.id ≤ q.id <;> by_cases hbq : b.id ≤ q.id
    · by_cases hab : a.id ≤ b.id
      · have hba : ¬ b.id ≤ a.id := fun hba => h (le_antisymm hab hba)
        simp [insertById, hab, hba, haq, hbq]
      · have hba : b.id ≤ a.id := le_of_not_le hab
        simp [insertById, hab, hba, haq, hbq]
    · have hab : a.id ≤ b.id := le_trans haq (le_of_not_le hbq)
      have hba : ¬ b.id ≤ a.id := fun hba => h (le_antisymm hab hba)
      simp [insertById, hab, hba, haq, hbq]
    · have hba : b.id ≤ a.id := le_trans hbq (le_of_not_le haq)
      have hab : ¬ a.id ≤ b.id := fun hab => h (le_antisymm hab hba)
      simp [insertById, hab, hba, haq, hbq]
    · simp [insertById, haq, hbq, ih]

theorem sortById_perm_eq (l₁ l₂ : List PeerRecord)
    (hp : l₁.Perm l₂) (hn : (l₁.map PeerRecord.id).Nodup) :
    sortById l₁ = sortById l₂ := by
  induction hp with
  | nil => rfl
  | cons x hp ih =>
    rw [sortById_cons, sortById_cons, ih (by simpa using hn.of_cons)]
  | swap x y l =>
    rw [sortById_cons, sortById_cons, sortById_cons, sortById_cons]
    have hxy : y.id ≠ x.id := by
      simp only [List.map_cons, List.nodup_cons, List.mem_cons, List.mem_map] at hn
      exact fun he => hn.1 (Or.inl he)
    exact insertById_comm y x (sortById l) hxy
  | trans hp₁ hp₂ ih₁ ih₂ =>
    have hn₂ := (hp₁.map PeerRecord.id).nodup hn
    rw [ih₁ hn, ih₂ hn₂]

/-- Claim C7, amended: the renderer preserves input order, so the
fetch-plus-render pipeline as coded is sensitive to the row order the
store returns; only after the spec's deterministic secondary sort by
peer identifier (identifiers being distinct, as the primary key
guarantees) does every permutation of the same peer set render to the
same bytes. -/
theorem render_sorted_perm_invariant (l₁ l₂ : List PeerRecord) (privateKey : String)
    (hp : l₁.Perm l₂) (hn : (l₁.map PeerRecord.id).Nodup) :
    updateWireGuardConfigText (sortById l₁) privateKey
      = updateWireGuardConfigText (sortById l₂) privateKey := by
  rw [sortById_perm_eq l₁ l₂ hp hn]

set_option maxRecDepth 8192 in
theorem render_sorted_perm_invariant_witness :
    ([samplePeerA, samplePeerB].Perm [samplePeerB, samplePeerA]
      ∧ ([samplePeerA, samplePeerB].map PeerRecord.id).Nodup)
    ∧ updateWireGuardConfigText (sortById [samplePeerA, samplePeerB]) "PRIV"
        = updateWireGuardConfigText (sortById [samplePeerB, samplePeerA]) "PRIV" := by
  have hp : [samplePeerA, samplePeerB].Perm [samplePeerB, samplePeerA] :=
    List.Perm.swap samplePeerB samplePeerA []
  have hn : ([samplePeerA, samplePeerB].map PeerRecord.id).Nodup := by decide
  exact ⟨⟨hp, hn⟩, render_sorted_perm_invariant _ _ "PRIV" hp hn⟩

set_option maxRecDepth 100000 in
/-- Claim C7, counterexample: without a sort, the pipeline is not
invariant under the store's row order — the same two peers supplied in
the two possible orders render to different bytes. -/
theorem render_order_sensitive_counterexample :
    updateWireGuardConfigText [samplePeerA, samplePeerB] "PRIV"
      ≠ updateWireGuardConfigText [samplePeerB, samplePeerA] "PRIV" := by
  decide

end VpsAgent
